import Mathlib

/-!
# pyx-metrics-viewer: the game and user lookup handlers

A shallow embedding of `game.go` and `user.go`.

Conventions of the embedding.

* A Go `string` is a Lean `String` (text, as delivered by the database and
  by HTTP clients); the functions of package `strings` work on its
  characters.
* `int16` and `int64` values are `Int`; the places where the range matters
  (conversion of a column to `int16`, `int64` arithmetic of package `time`)
  reduce explicitly.
* A Go slice is a `List`; `append` adds at the end.
* The database cursor (`*sql.Rows`) is given by the list of rows that
  successive `Next` calls deliver and by the error `Err` reports after `Next`
  has returned false.  A column of a row is `none` when it holds SQL NULL.
* A handler returns what it wrote to the gin context together with the lines
  it logged.
-/

namespace PyxMetrics

/-! ## Package `strings` of the Go standard library -/

namespace strings

/-- HasPrefix on characters: `s` starts with `p`. -/
def hasPrefixChars : List Char → List Char → Bool
  | _, [] => true
  | [], _ :: _ => false
  | c :: s, d :: p => c == d && hasPrefixChars s p

/-- Index on characters: the position of the first occurrence of `substr`
in `s`; `none` stands for the -1 of Go. -/
def indexChars (s substr : List Char) : Option Nat :=
  if hasPrefixChars s substr then some 0
  else
    match s with
    | [] => none
    | _ :: t => (indexChars t substr).map (· + 1)

/-- `strings.Index(s, substr)`. -/
def Index (s substr : String) : Option Nat := indexChars s.data substr.data

/-- `strings.Contains(s, substr)`, which is `Index(s, substr) >= 0`. -/
def Contains (s substr : String) : Bool := (Index s substr).isSome

/-- The loop of `strings.Count` for a non-empty `sep`: one more for every
occurrence found, searching on behind it.  The first argument bounds the
number of iterations. -/
def countLoop (sep : List Char) : Nat → List Char → Nat
  | 0, _ => 0
  | fuel + 1, s =>
    match indexChars s sep with
    | none => 0
    | some i => 1 + countLoop sep fuel (s.drop (i + sep.length))

/-- `strings.Count(s, substr)`: the number of non-overlapping occurrences,
and one more than the number of characters for the empty `substr`. -/
def Count (s substr : String) : Nat :=
  if substr.data = [] then s.data.length + 1
  else countLoop substr.data (s.data.length + 1) s.data

/-- The loop of `genSplit`: at most `n` pieces are cut off at occurrences of
`sep`, and the rest is the last piece. -/
def splitLoop (sep : List Char) (sepSave : Nat) : Nat → List Char → List (List Char)
  | 0, s => [s]
  | n + 1, s =>
    match indexChars s sep with
    | none => [s]
    | some m => s.take (m + sepSave) :: splitLoop sep sepSave n (s.drop (m + sep.length))

/-- `strings.Split(s, sep)`, which is `genSplit(s, sep, 0, -1)`: with an
empty `sep` the string is exploded into its characters; otherwise the number
of pieces is `Count(s, sep) + 1`, capped at `len(s) + 1`. -/
def Split (s sep : String) : List String :=
  if sep.data = [] then s.data.map (fun c => String.mk [c])
  else
    let n := Count s sep + 1
    let n := if n > s.data.length + 1 then s.data.length + 1 else n
    (splitLoop sep.data 0 (n - 1) s.data).map String.mk

end strings

/-! ## Package `time` of the Go standard library -/

/-- Seconds from January 1 of year 1 to January 1 of 1970. -/
def unixToInternal : Int := (1969 * 365 + 1969 / 4 - 1969 / 100 + 1969 / 400) * 86400

/-- The opposite of `unixToInternal`. -/
def internalToUnix : Int := -unixToInternal

/-- The value of an `int64` computation whose exact result is `x`. -/
def wrapInt64 (x : Int) : Int := (x + 2 ^ 63) % 2 ^ 64 - 2 ^ 63

/-- A `time.Time` without monotonic clock reading: `ext` is the number of
seconds since January 1 of year 1 (an `int64`), `nsec` the nanoseconds within
the second. -/
structure Time where
  ext : Int
  nsec : Nat
deriving DecidableEq

/-- The zero value of `time.Time`: January 1 of year 1, 00:00:00 UTC. -/
def Time.zero : Time := { ext := 0, nsec := 0 }

/-- `t.Unix()`: the seconds since the Unix epoch, `t.ext + internalToUnix`
in `int64` arithmetic. -/
def Time.Unix (t : Time) : Int := wrapInt64 (t.ext + internalToUnix)

/-- `t.After(u)`. -/
def Time.After (t u : Time) : Bool :=
  decide (t.ext > u.ext) || (decide (t.ext = u.ext) && decide (t.nsec > u.nsec))

/-- `time.Unix(sec, 0)`. -/
def timeUnix (sec : Int) : Time := { ext := wrapInt64 (sec + unixToInternal), nsec := 0 }

/-- Seconds in a day. -/
def secondsPerDay : Nat := 86400

/-- Seconds in a week. -/
def secondsPerWeek : Nat := 7 * secondsPerDay

/-- Days in a cycle of 400 years. -/
def daysPer400Years : Nat := 365 * 400 + 97

/-- Days in a cycle of 100 years. -/
def daysPer100Years : Nat := 365 * 100 + 24

/-- Days in a cycle of 4 years. -/
def daysPer4Years : Nat := 365 * 4 + 1

/-- The year the absolute time scale of the package starts in. -/
def absoluteZeroYear : Int := -292277022399

/-- Seconds from the start of the absolute time scale to January 1 of
year 1: `(absoluteZeroYear - internalYear) * 365.2425 * secondsPerDay`. -/
def absoluteToInternal : Int := (absoluteZeroYear - 1) * 31556952

/-- The opposite of `absoluteToInternal`. -/
def internalToAbsolute : Int := -absoluteToInternal

/-- `t.UTC()`: the same instant with the location set to UTC. -/
def Time.UTC (t : Time) : Time := t

/-- `t.abs()` for a time in UTC: the seconds on the absolute scale, a
`uint64`. -/
def Time.abs (t : Time) : Nat :=
  ((t.Unix + (unixToInternal + internalToAbsolute)) % 2 ^ 64).toNat

/-- `absWeekday(abs)`, Sunday being 0: January 1 of the absolute year was a
Monday. -/
def absWeekday (abs : Nat) : Nat :=
  ((abs + 1 * secondsPerDay) % 2 ^ 64 % secondsPerWeek) / secondsPerDay

/-- `absClock(abs)`: hour, minute and second within the day. -/
def absClock (abs : Nat) : Nat × Nat × Nat :=
  let sec := abs % secondsPerDay
  let hour := sec / 3600
  let sec := sec - hour * 3600
  let min := sec / 60
  let sec := sec - min * 60
  (hour, min, sec)

/-- `isLeap(year)`. -/
def isLeap (year : Int) : Bool :=
  year % 4 == 0 && (year % 100 != 0 || year % 400 == 0)

/-- `daysBefore[m]`: the days of a non-leap year before month `m + 1`. -/
def daysBefore (m : Nat) : Nat :=
  [0, 31, 59, 90, 120, 151, 181, 212, 243, 273, 304, 334, 365].getD m 0

/-- `absDate(abs, false)`: the year and the day within the year, counted
from 0. -/
def absYday (abs : Nat) : Int × Nat :=
  -- Split into time and day.
  let d := abs / secondsPerDay
  -- Account for 400 year cycles.
  let n := d / daysPer400Years
  let y := 400 * n
  let d := d - daysPer400Years * n
  -- Cut off 100-year cycles.
  let n := d / daysPer100Years
  let n := n - n / 4
  let y := y + 100 * n
  let d := d - daysPer100Years * n
  -- Cut off 4-year cycles.
  let n := d / daysPer4Years
  let y := y + 4 * n
  let d := d - daysPer4Years * n
  -- Cut off years within a 4-year cycle.
  let n := d / 365
  let n := n - n / 4
  let y := y + n
  let d := d - 365 * n
  ((y : Int) + absoluteZeroYear, d)

/-- `absDate(abs, true)`: year, month (January being 1) and day of the
month; the function goes on from the year and the day within the year that
`absDate(abs, false)` returns. -/
def absDate (abs : Nat) : Int × Nat × Nat :=
  let year := (absYday abs).1
  let day := (absYday abs).2
  if isLeap year && day == 31 + 29 - 1 then
    -- Leap day.
    (year, 2, 29)
  else
    -- After leap day; pretend it wasn't there.
    let day := if isLeap year && day > 31 + 29 - 1 then day - 1 else day
    -- Estimate month on assumption that every month has 31 days.
    let month := day / 31
    let stop := daysBefore (month + 1)
    if day ≥ stop then (year, month + 2, day - stop + 1)
    else (year, month + 1, day - daysBefore month + 1)

/-- The first three letters of `Weekday.String()`. -/
def shortDayName (d : Nat) : String :=
  ["Sun", "Mon", "Tue", "Wed", "Thu", "Fri", "Sat"].getD d "%!W"

/-- The first three letters of `Month.String()`. -/
def shortMonthName (m : Nat) : String :=
  ["Jan", "Feb", "Mar", "Apr", "May", "Jun", "Jul", "Aug", "Sep", "Oct", "Nov", "Dec"].getD
    (m - 1) "%!M"

/-- The decimal digit of a number below ten. -/
def digitChar (n : Nat) : Char := Char.ofNat (48 + n % 10)

/-- `appendInt(b, x, width)` without the buffer: the decimal form of `x`,
zero-padded to `width`, behind a minus sign when `x` is negative. -/
def appendInt (x : Int) (width : Nat) : List Char :=
  let u := x.natAbs
  let sign := if x < 0 then [(45 : Nat)].map Char.ofNat else []
  -- 2-digit and 4-digit fields are the most common in time formats.
  if width = 2 ∧ u < 100 then sign ++ [digitChar (u / 10), digitChar u]
  else if width = 4 ∧ u < 10000 then
    sign ++ [digitChar (u / 1000), digitChar (u / 100), digitChar (u / 10), digitChar u]
  else
    let digits := Nat.toDigits 10 u
    sign ++ List.replicate (width - digits.length) (Char.ofNat 48) ++ digits

/-- `t.Format(time.RFC1123)` for a time in UTC; the layout is
"Mon, 02 Jan 2006 15:04:05 MST", and the zone abbreviation of UTC is "UTC". -/
def Time.FormatRFC1123 (t : Time) : String :=
  let abs := t.abs
  let date := absDate abs
  let clock := absClock abs
  String.mk
    ((shortDayName (absWeekday abs)).data ++ ", ".data ++ appendInt date.2.2 2 ++ " ".data ++
      (shortMonthName date.2.1).data ++ " ".data ++ appendInt date.1 4 ++ " ".data ++
      appendInt clock.1 2 ++ ":".data ++ appendInt clock.2.1 2 ++ ":".data ++
      appendInt clock.2.2 2 ++ " ".data ++ "UTC".data)

/-! ## Data model -/

/-- Modelled from the spec: the type `CardMeta` is declared outside the files
at hand; its fields are those `getGame` fills in, a colour and the `int16`
draw and pick counts. -/
structure CardMeta where
  Color : String
  Draw : Int
  Pick : Int
deriving DecidableEq

/-- Modelled from the spec: the type `Card` is declared outside the files at
hand; its fields are those `getGame` fills in, the text, the watermark and
the card's meta information. -/
structure Card where
  Text : String
  Watermark : String
  Meta : CardMeta
deriving DecidableEq

/-- RoundMeta holds meta information about the round. -/
structure RoundMeta where
  RoundID : String
  Timestamp : Int
  BlackCard : Card
deriving DecidableEq

/-- GameMeta holds meta information about the game. -/
structure GameMeta where
  GameID : String
  Timestamp : Int
deriving DecidableEq

/-- SessionBasics holds the time the session logged in and its id. -/
structure SessionBasics where
  SessionID : String
  LogInTimestamp : Int
deriving DecidableEq

/-- UserMeta holds information about the sessions. -/
structure UserMeta where
  Sessions : List SessionBasics
deriving DecidableEq

/-- FormattedTimestamp will format the unix timestamp to a RFC1123 formatted
string: `time.Unix(round.Timestamp, 0).UTC().Format(time.RFC1123)`. -/
def RoundMeta.FormattedTimestamp (round : RoundMeta) : String :=
  (timeUnix round.Timestamp).UTC.FormatRFC1123

/-- FormattedTimestamp will format the unix timestamp to a RFC1123 formatted
string: `time.Unix(game.Timestamp, 0).UTC().Format(time.RFC1123)`. -/
def GameMeta.FormattedTimestamp (game : GameMeta) : String :=
  (timeUnix game.Timestamp).UTC.FormatRFC1123

/-- FormattedTimestamp will format the unix timestamp to a RFC1123 formatted
string: `time.Unix(session.LogInTimestamp, 0).UTC().Format(time.RFC1123)`. -/
def SessionBasics.FormattedTimestamp (session : SessionBasics) : String :=
  (timeUnix session.LogInTimestamp).UTC.FormatRFC1123

/-- ServerID brings back the current server id from the session id:
`strings.Split(session.SessionID, "_")[0]`; `none` is the index out of range
panic. -/
def SessionBasics.ServerID (session : SessionBasics) : Option String :=
  (strings.Split session.SessionID "_")[0]?

/-! ## The request, the query result and the response -/

/-- What the handlers read of the gin context: `c.Param("id")` and the
`Accept` header of the request, `none` when the request has no such header. -/
structure Context where
  id : String
  accept : Option String
deriving DecidableEq

/-- `c.Request.Header.Get("Accept")`: the empty string when the header is
absent. -/
def Context.headerGetAccept (c : Context) : String := c.accept.getD ""

/-- The outcome of `stmt.Query(id)`: an error, or a cursor over the rows
`rows` that `Next` delivers one by one, with the error `err` that `Err`
reports once `Next` has returned false (`none` at the regular end of the
result set). -/
inductive QueryResult (ρ : Type) where
  | failed (err : String)
  | cursor (rows : List ρ) (err : Option String)

/-- What a handler writes to the gin context. -/
inductive Response (α : Type) where
  | error (code : Nat) (message : String)
  | html (code : Nat) (name : String) (obj : α)
  | json (code : Nat) (obj : α)
deriving DecidableEq

/-- The HTTP status of a response. -/
def Response.status {α : Type} : Response α → Nat
  | .error code _ => code
  | .html code _ _ => code
  | .json code _ => code

/-- The record data a response carries, if any. -/
def Response.payload {α : Type} : Response α → Option α
  | .error _ _ => none
  | .html _ _ obj => some obj
  | .json _ obj => some obj

/-- Modelled from the spec: `returnError` is defined outside the files at
hand; it answers the request with the given status code and the given error
message. -/
def returnError {α : Type} (code : Nat) (message : String) : Response α :=
  .error code message

/-- A handler run: the response written and the lines logged. -/
structure Outcome (α : Type) where
  response : Response α
  log : List String
deriving DecidableEq

/-! ## `Rows.Scan` of package `database/sql` -/

/-- Conversion of a column to a `*string` destination: NULL is refused. -/
def assignString (src : Option String) : Option String := src

/-- Conversion of an integer column to an `*int16` destination: NULL and
values outside the `int16` range are refused. -/
def assignInt16 (src : Option Int) : Option Int :=
  match src with
  | none => none
  | some n => if -32768 ≤ n ∧ n ≤ 32767 then some n else none

/-- Conversion of a column to a `*time.Time` destination: NULL is refused. -/
def assignTime (src : Option Time) : Option Time := src

/-- A row of the game rounds query, as the driver delivers it. -/
structure GameRow where
  text : Option String
  watermark : Option String
  pick : Option Int
  draw : Option Int
  round_id : Option String
  timestamp : Option Time
deriving DecidableEq

/-- The variables declared in the loop body of `getGame`, with their zero
values. -/
structure GameVars where
  text : String := ""
  watermark : String := ""
  pick : Int := 0
  draw : Int := 0
  roundID : String := ""
  timestamp : Time := Time.zero
deriving DecidableEq

/-- `q.Scan(&text, &watermark, &pick, &draw, &roundID, &timestamp)`: the
columns are converted and assigned from left to right; the first column that
does not convert ends the scan with an error naming its index and leaves
that destination and the ones after it untouched. -/
def scanGame (cols : GameRow) (dest : GameVars) : GameVars × Option String :=
  match assignString cols.text with
  | none => (dest, some "sql: Scan error on column index 0")
  | some text =>
  let dest := { dest with text := text }
  match assignString cols.watermark with
  | none => (dest, some "sql: Scan error on column index 1")
  | some watermark =>
  let dest := { dest with watermark := watermark }
  match assignInt16 cols.pick with
  | none => (dest, some "sql: Scan error on column index 2")
  | some pick =>
  let dest := { dest with pick := pick }
  match assignInt16 cols.draw with
  | none => (dest, some "sql: Scan error on column index 3")
  | some draw =>
  let dest := { dest with draw := draw }
  match assignString cols.round_id with
  | none => (dest, some "sql: Scan error on column index 4")
  | some roundID =>
  let dest := { dest with roundID := roundID }
  match assignTime cols.timestamp with
  | none => (dest, some "sql: Scan error on column index 5")
  | some timestamp => ({ dest with timestamp := timestamp }, none)

/-- A row of the user sessions query, as the driver delivers it. -/
structure UserRow where
  session_id : Option String
  timestamp : Option Time
deriving DecidableEq

/-- The variables declared in the loop body of `getUser`, with their zero
values. -/
structure UserVars where
  sessionID : String := ""
  timestamp : Time := Time.zero
deriving DecidableEq

/-- `q.Scan(&sessionID, &timestamp)`. -/
def scanUser (cols : UserRow) (dest : UserVars) : UserVars × Option String :=
  match assignString cols.session_id with
  | none => (dest, some "sql: Scan error on column index 0")
  | some sessionID =>
  let dest := { dest with sessionID := sessionID }
  match assignTime cols.timestamp with
  | none => (dest, some "sql: Scan error on column index 1")
  | some timestamp => ({ dest with timestamp := timestamp }, none)

/-! ## The handlers -/

/-- The record `getGame` appends for the row just delivered: the variables
are declared afresh, `Scan` fills them, its error is not looked at. -/
def roundOfRow (cols : GameRow) : RoundMeta :=
  let vars := (scanGame cols {}).1
  { BlackCard :=
      { Text := vars.text
        Watermark := vars.watermark
        Meta := { Color := "black", Draw := vars.draw, Pick := vars.pick } }
    RoundID := vars.roundID
    Timestamp := vars.timestamp.Unix }

/-- The loop `for q.Next()` of `getGame`, started with the rounds gathered so
far. -/
def getGameLoop (rounds : List RoundMeta) : List GameRow → List RoundMeta
  | [] => rounds
  | cols :: rest => getGameLoop (rounds ++ [roundOfRow cols]) rest

/-- The handler of `GET /game/:id`. -/
def getGame (c : Context) (q : QueryResult GameRow) : Outcome (List RoundMeta) :=
  match q with
  | .failed err =>
    { response := returnError 500 ("Unable to query for game id " ++ c.id ++ ": " ++ err)
      log := [] }
  | .cursor rows qErr =>
    let rounds := getGameLoop [] rows
    let log :=
      match qErr with
      | some err => ["Error while iterating over rounds for game " ++ c.id ++ ": " ++ err]
      | none => []
    if strings.Contains c.headerGetAccept "text/html" then
      { response := .html 200 "game" rounds, log := log }
    else
      { response := .json 200 rounds, log := log }

/-- The record `getUser` appends for the row just delivered. -/
def sessionOfRow (cols : UserRow) : SessionBasics :=
  let vars := (scanUser cols {}).1
  { SessionID := vars.sessionID
    LogInTimestamp := vars.timestamp.Unix }

/-- The loop `for q.Next()` of `getUser`, started with the user gathered so
far. -/
def getUserLoop (user : UserMeta) : List UserRow → UserMeta
  | [] => user
  | cols :: rest => getUserLoop { user with Sessions := user.Sessions ++ [sessionOfRow cols] } rest

/-- The handler of `GET /user/:id`. -/
def getUser (c : Context) (q : QueryResult UserRow) : Outcome UserMeta :=
  match q with
  | .failed err =>
    { response := returnError 500 ("Unable to query for user with id " ++ c.id ++ ": " ++ err)
      log := [] }
  | .cursor rows qErr =>
    let user := getUserLoop { Sessions := [] } rows
    let log :=
      match qErr with
      | some err => ["Error while iterating over sessions for user " ++ c.id ++ ": " ++ err]
      | none => []
    if strings.Contains c.headerGetAccept "text/html" then
      { response := .html 200 "user" user, log := log }
    else
      { response := .json 200 user, log := log }

/-! ## Example inputs -/

/-- A request for id `g1` that accepts anything. -/
def exampleContext : Context := { id := "g1", accept := some "*/*" }

/-- Two rounds of a game, the later one first. -/
def exampleGameRows : List GameRow :=
  [ { text := some "Why?", watermark := some "US", pick := some 1, draw := some 0,
      round_id := some "r2", timestamp := some { ext := 62135596800 + 120, nsec := 5 } },
    { text := some "_ and _", watermark := some "UK", pick := some 2, draw := some 1,
      round_id := some "r1", timestamp := some { ext := 62135596800 + 60, nsec := 0 } } ]

/-- Two sessions of a user, the later one first. -/
def exampleUserRows : List UserRow :=
  [ { session_id := some "serverA_xyz123",
      timestamp := some { ext := 62135596800 + 120, nsec := 5 } },
    { session_id := some "serverB_abc",
      timestamp := some { ext := 62135596800 + 60, nsec := 0 } } ]

/-- The record `m` has the fields of the row `r`: text, watermark, pick,
draw and round id are the row's columns, the colour is "black" and the
timestamp is the row timestamp's Unix seconds. -/
def RoundMeta.MatchesRow (m : RoundMeta) (r : GameRow) : Prop :=
  r.text = some m.BlackCard.Text ∧
    r.watermark = some m.BlackCard.Watermark ∧
    r.pick = some m.BlackCard.Meta.Pick ∧
    r.draw = some m.BlackCard.Meta.Draw ∧
    r.round_id = some m.RoundID ∧
    m.BlackCard.Meta.Color = "black" ∧
    r.timestamp.map Time.Unix = some m.Timestamp

/-- The record `m` has the fields of the row `r`: the session id is the
row's column and the login timestamp is the row timestamp's Unix seconds. -/
def SessionBasics.MatchesRow (m : SessionBasics) (r : UserRow) : Prop :=
  r.session_id = some m.SessionID ∧ r.timestamp.map Time.Unix = some m.LogInTimestamp

/-- Three rows of the game query; the pick column of the second is NULL. -/
def gameRowsWithNull : List GameRow :=
  [ { text := some "Why?", watermark := some "US", pick := some 1, draw := some 0,
      round_id := some "r3", timestamp := some { ext := 62135596800 + 180, nsec := 0 } },
    { text := some "What?", watermark := some "US", pick := none, draw := some 0,
      round_id := some "r2", timestamp := some { ext := 62135596800 + 120, nsec := 0 } },
    { text := some "_ and _", watermark := some "UK", pick := some 2, draw := some 1,
      round_id := some "r1", timestamp := some { ext := 62135596800 + 60, nsec := 0 } } ]

/-- Three rows of the user query; the session id of the second is NULL. -/
def userRowsWithNull : List UserRow :=
  [ { session_id := some "serverA_c", timestamp := some { ext := 62135596800 + 180, nsec := 0 } },
    { session_id := none, timestamp := some { ext := 62135596800 + 120, nsec := 0 } },
    { session_id := some "serverA_a", timestamp := some { ext := 62135596800 + 60, nsec := 0 } } ]

/-- A request as a browser sends it: the Accept header lists several types,
`text/html` among them. -/
def browserContext : Context :=
  { id := "g1", accept := some "text/html,application/xhtml+xml" }

/-- The timestamps of the rows of the game query, in the order of the
rows. -/
def gameTimes (rows : List GameRow) : List Time := rows.filterMap (fun r => r.timestamp)

/-- The timestamps of the rows of the user query, in the order of the
rows. -/
def userTimes (rows : List UserRow) : List Time := rows.filterMap (fun r => r.timestamp)

/-- The Unix seconds of `t` fit an `int64`, so that `t.Unix()` does not wrap
around. -/
def Time.fitsUnix (t : Time) : Bool :=
  decide (-2 ^ 63 ≤ t.ext + internalToUnix) && decide (t.ext + internalToUnix < 2 ^ 63)

/-- Two rounds completed within the same second, the later one first. -/
def sameSecondGameRows : List GameRow :=
  [ { text := some "Why?", watermark := some "US", pick := some 1, draw := some 0,
      round_id := some "r2", timestamp := some { ext := 62135596800 + 5, nsec := 500000000 } },
    { text := some "_ and _", watermark := some "UK", pick := some 2, draw := some 1,
      round_id := some "r1", timestamp := some { ext := 62135596800 + 5, nsec := 0 } } ]

/-- Two logins within the same second, the later one first. -/
def sameSecondUserRows : List UserRow :=
  [ { session_id := some "serverA_b",
      timestamp := some { ext := 62135596800 + 5, nsec := 500000000 } },
    { session_id := some "serverA_a",
      timestamp := some { ext := 62135596800 + 5, nsec := 0 } } ]

/-- The fixed shape "Www, DD Mon YYYY HH:MM:SS UTC" of an RFC 1123 date in
UTC: an English day name, a two-digit day, an English month name, a
four-digit year and a two-digit hour, minute and second. -/
def RFC1123Shape (s : String) : Prop :=
  ∃ (day month : String) (D1 D2 Y1 Y2 Y3 Y4 h1 h2 m1 m2 s1 s2 : Char),
    day ∈ ["Sun", "Mon", "Tue", "Wed", "Thu", "Fri", "Sat"] ∧
    month ∈ ["Jan", "Feb", "Mar", "Apr", "May", "Jun", "Jul", "Aug", "Sep", "Oct", "Nov",
      "Dec"] ∧
    (∀ ch ∈ [D1, D2, Y1, Y2, Y3, Y4, h1, h2, m1, m2, s1, s2], ch.isDigit = true) ∧
    s = day ++ ", " ++ String.mk [D1, D2] ++ " " ++ month ++ " " ++
      String.mk [Y1, Y2, Y3, Y4] ++ " " ++ String.mk [h1, h2] ++ ":" ++ String.mk [m1, m2] ++
      ":" ++ String.mk [s1, s2] ++ " UTC"

/-- A round completed on November 1 of 2026 at 21:00:00 UTC. -/
def exampleRound : RoundMeta :=
  { RoundID := "r1", Timestamp := 1793566800,
    BlackCard := { Text := "Why?", Watermark := "US",
                   Meta := { Color := "black", Draw := 0, Pick := 1 } } }

/-- A game created at the same time. -/
def exampleGame : GameMeta := { GameID := "g1", Timestamp := 1793566800 }

/-- A session logged in at the same time. -/
def exampleSession : SessionBasics :=
  { SessionID := "serverA_xyz123", LogInTimestamp := 1793566800 }

/-! ## The loops as maps -/

theorem getGameLoop_eq (rounds : List RoundMeta) (rows : List GameRow) :
    getGameLoop rounds rows = rounds ++ rows.map roundOfRow := by
  induction rows generalizing rounds with
  | nil => simp [getGameLoop]
  | cons r rest ih => simp [getGameLoop, ih]

theorem getUserLoop_eq (user : UserMeta) (rows : List UserRow) :
    getUserLoop user rows = { Sessions := user.Sessions ++ rows.map sessionOfRow } := by
  induction rows generalizing user with
  | nil => simp [getUserLoop]
  | cons r rest ih => simp [getUserLoop, ih]

theorem getGame_cursor (c : Context) (rows : List GameRow) (qErr : Option String) :
    (getGame c (.cursor rows qErr)).response =
      if strings.Contains c.headerGetAccept "text/html" then .html 200 "game" (rows.map roundOfRow)
      else .json 200 (rows.map roundOfRow) := by
  simp only [getGame, getGameLoop_eq, List.nil_append]
  split <;> rfl

theorem getUser_cursor (c : Context) (rows : List UserRow) (qErr : Option String) :
    (getUser c (.cursor rows qErr)).response =
      if strings.Contains c.headerGetAccept "text/html" then
        .html 200 "user" { Sessions := rows.map sessionOfRow }
      else .json 200 { Sessions := rows.map sessionOfRow } := by
  simp only [getUser, getUserLoop_eq, List.nil_append]
  split <;> rfl

theorem getGame_cursor_status (c : Context) (rows : List GameRow) (qErr : Option String) :
    (getGame c (.cursor rows qErr)).response.status = 200 ∧
      (getGame c (.cursor rows qErr)).response.payload = some (rows.map roundOfRow) := by
  rw [getGame_cursor]
  split <;> simp [Response.status, Response.payload]

theorem getUser_cursor_status (c : Context) (rows : List UserRow) (qErr : Option String) :
    (getUser c (.cursor rows qErr)).response.status = 200 ∧
      (getUser c (.cursor rows qErr)).response.payload =
        some { Sessions := rows.map sessionOfRow } := by
  rw [getUser_cursor]
  split <;> simp [Response.status, Response.payload]

theorem assignInt16_some {src : Option Int} {n : Int} (h : assignInt16 src = some n) :
    src = some n := by
  cases src with
  | none => simp [assignInt16] at h
  | some v =>
    simp only [assignInt16] at h
    split at h
    · simpa using h
    · simp at h

/-- A row of the game query that `Scan` reads without error yields the
record whose fields are the row's columns. -/
theorem roundOfRow_of_scan_ok (r : GameRow) (h : (scanGame r {}).2 = none) :
    r.text = some (roundOfRow r).BlackCard.Text ∧
      r.watermark = some (roundOfRow r).BlackCard.Watermark ∧
      r.pick = some (roundOfRow r).BlackCard.Meta.Pick ∧
      r.draw = some (roundOfRow r).BlackCard.Meta.Draw ∧
      r.round_id = some (roundOfRow r).RoundID ∧
      (roundOfRow r).BlackCard.Meta.Color = "black" ∧
      r.timestamp.map Time.Unix = some (roundOfRow r).Timestamp := by
  obtain ⟨text, watermark, pick, draw, round_id, timestamp⟩ := r
  cases text <;> cases watermark <;> cases hp : assignInt16 pick <;>
    cases hd : assignInt16 draw <;> cases round_id <;> cases timestamp <;>
    simp [scanGame, assignString, assignTime, hp, hd, roundOfRow] at h ⊢
  exact ⟨assignInt16_some hp, assignInt16_some hd⟩

/-- A row of the user query that `Scan` reads without error yields the
record whose fields are the row's columns. -/
theorem sessionOfRow_of_scan_ok (r : UserRow) (h : (scanUser r {}).2 = none) :
    r.session_id = some (sessionOfRow r).SessionID ∧
      r.timestamp.map Time.Unix = some (sessionOfRow r).LogInTimestamp := by
  obtain ⟨session_id, timestamp⟩ := r
  cases session_id <;> cases timestamp <;>
    simp_all [sessionOfRow, scanUser, assignString, assignTime]

/-! ## Substring search -/

theorem hasPrefixChars_iff (s p : List Char) :
    strings.hasPrefixChars s p = true ↔ ∃ t, s = p ++ t := by
  induction p generalizing s with
  | nil => simp [strings.hasPrefixChars]
  | cons d p ih =>
    cases s with
    | nil => simp [strings.hasPrefixChars]
    | cons c s =>
      simp only [strings.hasPrefixChars, Bool.and_eq_true, beq_iff_eq, ih, List.cons_append,
        List.cons.injEq]
      constructor
      · rintro ⟨rfl, t, rfl⟩
        exact ⟨t, rfl, rfl⟩
      · rintro ⟨t, rfl, rfl⟩
        exact ⟨rfl, t, rfl⟩

theorem indexChars_isSome_iff (s substr : List Char) :
    (strings.indexChars s substr).isSome = true ↔ ∃ pre post, s = pre ++ substr ++ post := by
  induction s with
  | nil =>
    unfold strings.indexChars
    by_cases hp : strings.hasPrefixChars [] substr = true
    · obtain ⟨t, ht⟩ := (hasPrefixChars_iff _ _).1 hp
      simp only [hp, if_true, Option.isSome_some, true_iff]
      exact ⟨[], t, by simpa using ht⟩
    · simp only [hp, if_false, Option.isSome_none, Bool.false_eq_true, false_iff]
      rintro ⟨pre, post, h⟩
      apply hp
      rw [hasPrefixChars_iff]
      have : pre = [] := by
        cases pre with
        | nil => rfl
        | cons a l => simp at h
      subst this
      exact ⟨post, by simpa using h⟩
  | cons x t ih =>
    unfold strings.indexChars
    by_cases hp : strings.hasPrefixChars (x :: t) substr = true
    · obtain ⟨u, hu⟩ := (hasPrefixChars_iff _ _).1 hp
      simp only [hp, if_true, Option.isSome_some, true_iff]
      exact ⟨[], u, by simpa using hu⟩
    · simp only [hp, Option.isSome_map', ih, Bool.false_eq_true, if_false]
      constructor
      · rintro ⟨pre, post, rfl⟩
        exact ⟨x :: pre, post, by simp⟩
      · rintro ⟨pre, post, h⟩
        cases pre with
        | nil =>
          exact absurd ((hasPrefixChars_iff _ _).2 ⟨post, by simpa using h⟩) hp
        | cons a l =>
          simp only [List.cons_append, List.cons.injEq] at h
          exact ⟨l, post, by simpa using h.2⟩

/-- `strings.Contains` holds exactly of the strings that have `substr`
somewhere inside. -/
theorem Contains_iff (s substr : String) :
    strings.Contains s substr = true ↔ ∃ pre post : String, s = pre ++ substr ++ post := by
  unfold strings.Contains strings.Index
  rw [indexChars_isSome_iff]
  constructor
  · rintro ⟨pre, post, h⟩
    exact ⟨String.mk pre, String.mk post, String.ext (by simpa using h)⟩
  · rintro ⟨pre, post, h⟩
    exact ⟨pre.data, post.data, by rw [h]; simp⟩

/-! ## Game and user lookup -/

/-- C1: game lookup over a list of `N` rows read without failure answers
with status 200 and `N` RoundMeta records in the order of the rows, the i-th
record having the fields of the i-th row (colour "black", timestamp in Unix
seconds); no rows give the empty sequence with status 200. -/
theorem getGame_returns_rounds (c : Context) (rows : List GameRow)
    (hread : ∀ r ∈ rows, (scanGame r {}).2 = none) :
    ∃ rounds : List RoundMeta,
      (getGame c (.cursor rows none)).response.status = 200 ∧
      (getGame c (.cursor rows none)).response.payload = some rounds ∧
      rounds.length = rows.length ∧
      (∀ (i : Nat) (r : GameRow), rows[i]? = some r →
        ∃ m : RoundMeta, rounds[i]? = some m ∧ m.MatchesRow r) ∧
      (rows = [] → rounds = []) := by
  refine ⟨rows.map roundOfRow, (getGame_cursor_status c rows none).1,
    (getGame_cursor_status c rows none).2, by simp, ?_, ?_⟩
  · intro i r hi
    refine ⟨roundOfRow r, by simp [List.getElem?_map, hi], ?_⟩
    exact roundOfRow_of_scan_ok r (hread r (List.getElem?_mem hi))
  · rintro rfl
    rfl

theorem getGame_returns_rounds_witness :
    (∀ r ∈ exampleGameRows, (scanGame r {}).2 = none) ∧
    ∃ rounds : List RoundMeta,
      (getGame exampleContext (.cursor exampleGameRows none)).response.status = 200 ∧
      (getGame exampleContext (.cursor exampleGameRows none)).response.payload = some rounds ∧
      rounds.length = exampleGameRows.length ∧
      (∀ (i : Nat) (r : GameRow), exampleGameRows[i]? = some r →
        ∃ m : RoundMeta, rounds[i]? = some m ∧ m.MatchesRow r) ∧
      (exampleGameRows = [] → rounds = []) :=
  ⟨by decide, getGame_returns_rounds exampleContext exampleGameRows (by decide)⟩

/-- C2: user lookup over a list of `N` rows read without failure answers
with status 200 and a UserMeta whose Sessions are `N` SessionBasics in the
order of the rows, the i-th having the session id of the i-th row and its
timestamp in Unix seconds; no rows give the empty sequence with status
200. -/
theorem getUser_returns_sessions (c : Context) (rows : List UserRow)
    (hread : ∀ r ∈ rows, (scanUser r {}).2 = none) :
    ∃ user : UserMeta,
      (getUser c (.cursor rows none)).response.status = 200 ∧
      (getUser c (.cursor rows none)).response.payload = some user ∧
      user.Sessions.length = rows.length ∧
      (∀ (i : Nat) (r : UserRow), rows[i]? = some r →
        ∃ m : SessionBasics, user.Sessions[i]? = some m ∧ m.MatchesRow r) ∧
      (rows = [] → user.Sessions = []) := by
  refine ⟨{ Sessions := rows.map sessionOfRow }, (getUser_cursor_status c rows none).1,
    (getUser_cursor_status c rows none).2, by simp, ?_, ?_⟩
  · intro i r hi
    refine ⟨sessionOfRow r, by simp [List.getElem?_map, hi], ?_⟩
    exact sessionOfRow_of_scan_ok r (hread r (List.getElem?_mem hi))
  · rintro rfl
    rfl

theorem getUser_returns_sessions_witness :
    (∀ r ∈ exampleUserRows, (scanUser r {}).2 = none) ∧
    ∃ user : UserMeta,
      (getUser exampleContext (.cursor exampleUserRows none)).response.status = 200 ∧
      (getUser exampleContext (.cursor exampleUserRows none)).response.payload = some user ∧
      user.Sessions.length = exampleUserRows.length ∧
      (∀ (i : Nat) (r : UserRow), exampleUserRows[i]? = some r →
        ∃ m : SessionBasics, user.Sessions[i]? = some m ∧ m.MatchesRow r) ∧
      (exampleUserRows = [] → user.Sessions = []) :=
  ⟨by decide, getUser_returns_sessions exampleContext exampleUserRows (by decide)⟩

/-- C3: when starting the query fails, both handlers answer with status 500
and the message naming the requested id, write no 200 response and no record
payload; and a handler answers 500 only when starting the query failed. -/
theorem query_failure_answers_500 (c : Context) (err : String) :
    (getGame c (.failed err)).response =
        .error 500 ("Unable to query for game id " ++ c.id ++ ": " ++ err) ∧
      (getUser c (.failed err)).response =
        .error 500 ("Unable to query for user with id " ++ c.id ++ ": " ++ err) ∧
      (getGame c (.failed err)).response.status = 500 ∧
      (getUser c (.failed err)).response.status = 500 ∧
      (getGame c (.failed err)).response.payload = none ∧
      (getUser c (.failed err)).response.payload = none ∧
      (∀ q : QueryResult GameRow,
        (getGame c q).response.status = 500 ↔ ∃ e, q = .failed e) ∧
      (∀ q : QueryResult UserRow,
        (getUser c q).response.status = 500 ↔ ∃ e, q = .failed e) := by
  refine ⟨rfl, rfl, rfl, rfl, rfl, rfl, ?_, ?_⟩
  · intro q
    cases q with
    | failed e => simp [getGame, returnError, Response.status]
    | cursor rows qErr => simp [(getGame_cursor_status c rows qErr).1]
  · intro q
    cases q with
    | failed e => simp [getUser, returnError, Response.status]
    | cursor rows qErr => simp [(getUser_cursor_status c rows qErr).1]

/-- C4: when the cursor stops with an iteration error after `k` rows, both
handlers still answer with status 200 and the `k` records built from those
rows, in order, the same response as without the error; the error is only
logged. -/
theorem iteration_error_keeps_rows (c : Context) (gameRows : List GameRow)
    (userRows : List UserRow) (err : String) :
    (getGame c (.cursor gameRows (some err))).response.status = 200 ∧
      (getGame c (.cursor gameRows (some err))).response.payload =
        some (gameRows.map roundOfRow) ∧
      (gameRows.map roundOfRow).length = gameRows.length ∧
      (getGame c (.cursor gameRows (some err))).response =
        (getGame c (.cursor gameRows none)).response ∧
      (getGame c (.cursor gameRows (some err))).log =
        ["Error while iterating over rounds for game " ++ c.id ++ ": " ++ err] ∧
      (getUser c (.cursor userRows (some err))).response.status = 200 ∧
      (getUser c (.cursor userRows (some err))).response.payload =
        some { Sessions := userRows.map sessionOfRow } ∧
      (userRows.map sessionOfRow).length = userRows.length ∧
      (getUser c (.cursor userRows (some err))).response =
        (getUser c (.cursor userRows none)).response ∧
      (getUser c (.cursor userRows (some err))).log =
        ["Error while iterating over sessions for user " ++ c.id ++ ": " ++ err] := by
  refine ⟨(getGame_cursor_status c _ _).1, (getGame_cursor_status c _ _).2, by simp,
    by rw [getGame_cursor, getGame_cursor], ?_,
    (getUser_cursor_status c _ _).1, (getUser_cursor_status c _ _).2, by simp,
    by rw [getUser_cursor, getUser_cursor], ?_⟩
  · simp only [getGame]
    split <;> rfl
  · simp only [getUser]
    split <;> rfl

/-- C5, the code at a failing row: of three rows whose second does not scan
(a NULL column), `getGame` and `getUser` answer with three records; the
second keeps the columns read before the NULL and has zero values from there
on (the timestamp of the zero time), the third row is read as usual, and
nothing is logged. -/
theorem scan_failure_still_emits_record :
    gameRowsWithNull.map (fun r => (scanGame r {}).2) =
      [none, some "sql: Scan error on column index 2", none] ∧
    userRowsWithNull.map (fun r => (scanUser r {}).2) =
      [none, some "sql: Scan error on column index 0", none] ∧
    getGame exampleContext (.cursor gameRowsWithNull none) =
      { response := .json 200
          [ { RoundID := "r3", Timestamp := 180,
              BlackCard := { Text := "Why?", Watermark := "US",
                             Meta := { Color := "black", Draw := 0, Pick := 1 } } },
            { RoundID := "", Timestamp := -62135596800,
              BlackCard := { Text := "What?", Watermark := "US",
                             Meta := { Color := "black", Draw := 0, Pick := 0 } } },
            { RoundID := "r1", Timestamp := 60,
              BlackCard := { Text := "_ and _", Watermark := "UK",
                             Meta := { Color := "black", Draw := 1, Pick := 2 } } } ]
        log := [] } ∧
    getUser exampleContext (.cursor userRowsWithNull none) =
      { response := .json 200
          { Sessions :=
              [ { SessionID := "serverA_c", LogInTimestamp := 180 },
                { SessionID := "", LogInTimestamp := -62135596800 },
                { SessionID := "serverA_a", LogInTimestamp := 60 } ] }
        log := [] } := by
  decide

/-- C6, as stated, fails: an Accept value other than `text/html` that has
`text/html` inside it is answered with the HTML page, not with JSON. -/
theorem other_accept_value_gets_html :
    browserContext.accept ≠ some "text/html" ∧
      (getGame browserContext (.cursor exampleGameRows none)).response =
        .html 200 "game" (exampleGameRows.map roundOfRow) ∧
      (getUser browserContext (.cursor exampleUserRows none)).response =
        .html 200 "user" { Sessions := exampleUserRows.map sessionOfRow } := by
  decide

/-- C6, amended: for every successful query, a request whose Accept header
is `text/html` receives the HTML page; a request whose Accept value does not
have `text/html` inside it, or that has no Accept header, receives the JSON
payload equal to the records built from the rows. -/
theorem content_negotiation (c : Context) (gameRows : List GameRow) (userRows : List UserRow)
    (gameErr userErr : Option String) :
    (c.accept = some "text/html" →
      (getGame c (.cursor gameRows gameErr)).response =
          .html 200 "game" (gameRows.map roundOfRow) ∧
        (getUser c (.cursor userRows userErr)).response =
          .html 200 "user" { Sessions := userRows.map sessionOfRow }) ∧
    ((c.accept = none ∨
        ∃ a, c.accept = some a ∧ ¬ ∃ pre post : String, a = pre ++ "text/html" ++ post) →
      (getGame c (.cursor gameRows gameErr)).response = .json 200 (gameRows.map roundOfRow) ∧
        (getUser c (.cursor userRows userErr)).response =
          .json 200 { Sessions := userRows.map sessionOfRow }) := by
  rw [getGame_cursor, getUser_cursor]
  constructor
  · intro h
    have hc : strings.Contains c.headerGetAccept "text/html" = true := by
      rw [Context.headerGetAccept, h]
      decide
    simp [hc]
  · intro h
    have hc : ¬ strings.Contains c.headerGetAccept "text/html" = true := by
      rcases h with h | ⟨a, h, hn⟩
      · rw [Context.headerGetAccept, h]
        decide
      · rw [Context.headerGetAccept, h, Contains_iff]
        exact hn
    simp [hc]

/-- C7: for every Accept header value (the empty string when the header is
absent) both handlers render their HTML template, "game" or "user", exactly
when the value has the substring "text/html" somewhere inside it, compared
character by character, and answer with JSON exactly when it has not; both
carry the same records with status 200. -/
theorem accept_substring_rule (c : Context) (gameRows : List GameRow) (userRows : List UserRow)
    (gameErr userErr : Option String) :
    ((getGame c (.cursor gameRows gameErr)).response =
        .html 200 "game" (gameRows.map roundOfRow) ↔
      ∃ pre post : String, c.accept.getD "" = pre ++ "text/html" ++ post) ∧
    ((getGame c (.cursor gameRows gameErr)).response = .json 200 (gameRows.map roundOfRow) ↔
      ¬ ∃ pre post : String, c.accept.getD "" = pre ++ "text/html" ++ post) ∧
    ((getUser c (.cursor userRows userErr)).response =
        .html 200 "user" { Sessions := userRows.map sessionOfRow } ↔
      ∃ pre post : String, c.accept.getD "" = pre ++ "text/html" ++ post) ∧
    ((getUser c (.cursor userRows userErr)).response =
        .json 200 { Sessions := userRows.map sessionOfRow } ↔
      ¬ ∃ pre post : String, c.accept.getD "" = pre ++ "text/html" ++ post) ∧
    (getGame c (.cursor gameRows gameErr)).response.status = 200 ∧
    (getUser c (.cursor userRows userErr)).response.status = 200 ∧
    (getGame { c with accept := some "TEXT/HTML" } (.cursor gameRows gameErr)).response =
      .json 200 (gameRows.map roundOfRow) := by
  refine ⟨?_, ?_, ?_, ?_, (getGame_cursor_status c _ _).1, (getUser_cursor_status c _ _).1, ?_⟩
  · rw [getGame_cursor, ← Contains_iff]
    by_cases hc : strings.Contains (c.accept.getD "") "text/html" = true <;>
      simp [Context.headerGetAccept, hc]
  · rw [getGame_cursor, ← Contains_iff]
    by_cases hc : strings.Contains (c.accept.getD "") "text/html" = true <;>
      simp [Context.headerGetAccept, hc]
  · rw [getUser_cursor, ← Contains_iff]
    by_cases hc : strings.Contains (c.accept.getD "") "text/html" = true <;>
      simp [Context.headerGetAccept, hc]
  · rw [getUser_cursor, ← Contains_iff]
    by_cases hc : strings.Contains (c.accept.getD "") "text/html" = true <;>
      simp [Context.headerGetAccept, hc]
  · rw [getGame_cursor]
    have hc : strings.Contains "TEXT/HTML" "text/html" = false := by decide
    simp [Context.headerGetAccept, hc]

/-! ## The server id of a session -/

theorem indexChars_single_none (c : Char) (s : List Char)
    (h : strings.indexChars s [c] = none) : s.takeWhile (fun x => x != c) = s := by
  induction s with
  | nil => rfl
  | cons x t ih =>
    unfold strings.indexChars at h
    by_cases hx : x = c
    · simp [strings.hasPrefixChars, hx] at h
    · simp only [strings.hasPrefixChars, beq_iff_eq, hx, Bool.and_true, Bool.false_eq_true,
        if_false, Option.map_eq_none', decide_False] at h
      have hne : (x != c) = true := by simpa using hx
      simp only [List.takeWhile_cons, hne, if_true, ih h]

theorem indexChars_single_some (c : Char) (s : List Char) (m : Nat)
    (h : strings.indexChars s [c] = some m) :
    s.take m = s.takeWhile (fun x => x != c) ∧ m < s.length := by
  induction s generalizing m with
  | nil => simp [strings.indexChars, strings.hasPrefixChars] at h
  | cons x t ih =>
    unfold strings.indexChars at h
    by_cases hx : x = c
    · simp only [strings.hasPrefixChars, hx, beq_self_eq_true, Bool.and_true, if_true,
        Option.some.injEq] at h
      subst h
      simp [List.takeWhile, hx]
    · simp only [strings.hasPrefixChars, beq_iff_eq, hx, Bool.and_true, Bool.false_eq_true,
        if_false, Option.map_eq_some', decide_False] at h
      obtain ⟨k, hk, rfl⟩ := h
      obtain ⟨h1, h2⟩ := ih k hk
      have hne : (x != c) = true := by simpa using hx
      simp only [List.takeWhile_cons, hne, if_true, List.take_succ_cons, h1, List.length_cons]
      exact ⟨trivial, by omega⟩

/-- The server id is the longest part at the start of the session id that is
free of underscores. -/
theorem ServerID_eq_takeWhile (session : SessionBasics) :
    session.ServerID =
      some (String.mk (session.SessionID.data.takeWhile (fun x => x != '_'))) := by
  have hsep : ("_" : String).data = ['_'] := rfl
  unfold SessionBasics.ServerID strings.Split strings.Count
  simp only [hsep, List.cons_ne_nil, if_false, List.length_cons, List.length_nil]
  cases hi : strings.indexChars session.SessionID.data ['_'] with
  | none =>
    simp [strings.countLoop, strings.splitLoop, hi, indexChars_single_none _ _ hi]
  | some m =>
    obtain ⟨h1, h2⟩ := indexChars_single_some _ _ _ hi
    obtain ⟨k, hk⟩ : ∃ k, session.SessionID.data.length = k + 1 :=
      ⟨session.SessionID.data.length - 1, by omega⟩
    have hcount : 1 ≤ strings.countLoop ['_'] (session.SessionID.data.length + 1)
        session.SessionID.data := by
      simp only [strings.countLoop, hi]
      omega
    have hn : ∃ j, (if strings.countLoop ['_'] (session.SessionID.data.length + 1)
          session.SessionID.data + 1 > session.SessionID.data.length + 1
        then session.SessionID.data.length + 1
        else strings.countLoop ['_'] (session.SessionID.data.length + 1)
          session.SessionID.data + 1) - 1 = j + 1 := by
      split
      · exact ⟨k, by omega⟩
      · exact ⟨strings.countLoop ['_'] (session.SessionID.data.length + 1)
          session.SessionID.data - 1, by omega⟩
    obtain ⟨j, hj⟩ := hn
    rw [hj]
    simp [strings.splitLoop, hi, h1]

/-- C8: ServerID returns, without failing, the part of the session id before
its first underscore: the result has no underscore and the session id is the
result alone or the result, an underscore and a rest; it is the whole id when
the id has no underscore and empty when the id is empty or starts with an
underscore; for "serverA_xyz123" it is "serverA". -/
theorem ServerID_is_part_before_underscore (session : SessionBasics) :
    ∃ r : String, session.ServerID = some r ∧
      '_' ∉ r.data ∧
      (session.SessionID = r ∨ ∃ rest : String, session.SessionID = r ++ "_" ++ rest) ∧
      ('_' ∉ session.SessionID.data → r = session.SessionID) ∧
      (session.SessionID = "" → r = "") ∧
      ((∃ rest : String, session.SessionID = "_" ++ rest) → r = "") ∧
      SessionBasics.ServerID
          { SessionID := "serverA_xyz123", LogInTimestamp := session.LogInTimestamp } =
        some "serverA" := by
  refine ⟨_, ServerID_eq_takeWhile session, ?_, ?_, ?_, ?_, ?_, ?_⟩
  · intro hmem
    have := List.mem_takeWhile_imp hmem
    simp at this
  · have hsplit := List.takeWhile_append_dropWhile (fun x => x != '_') session.SessionID.data
    cases hd : session.SessionID.data.dropWhile (fun x => x != '_') with
    | nil =>
      left
      apply String.ext
      rw [hd, List.append_nil] at hsplit
      exact hsplit.symm
    | cons y rest =>
      right
      have hy : y = '_' := by
        have := List.head_dropWhile_not (fun x => x != '_') session.SessionID.data
          (by rw [hd]; simp)
        simpa [hd] using this
      subst hy
      refine ⟨String.mk rest, String.ext ?_⟩
      rw [hd] at hsplit
      have hsep : ("_" : String).data = ['_'] := rfl
      rw [String.data_append, String.data_append, hsep]
      simp only [List.append_assoc, List.singleton_append]
      exact hsplit.symm
  · intro hno
    apply String.ext
    simp only
    rw [List.takeWhile_eq_self_iff]
    intro x hx
    have : x ≠ '_' := fun h => hno (h ▸ hx)
    simpa using this
  · intro he
    rw [he]
    rfl
  · rintro ⟨rest, he⟩
    rw [he]
    apply String.ext
    simp [List.takeWhile]
  · rw [ServerID_eq_takeWhile]
    exact (by decide :
      some (String.mk (List.takeWhile (fun x => x != '_') "serverA_xyz123".data)) =
        some "serverA")

/-! ## The order of the records -/

theorem Time.Unix_of_fitsUnix (t : Time) (h : t.fitsUnix = true) :
    t.Unix = t.ext + internalToUnix := by
  simp only [Time.fitsUnix, Bool.and_eq_true, decide_eq_true_eq] at h
  unfold Time.Unix wrapInt64
  norm_num at h ⊢
  omega

theorem Time.Unix_antitone (a b : Time) (ha : a.fitsUnix = true) (hb : b.fitsUnix = true)
    (h : b.After a = false) : a.Unix ≥ b.Unix := by
  rw [Time.Unix_of_fitsUnix a ha, Time.Unix_of_fitsUnix b hb]
  simp only [Time.After, Bool.or_eq_false_iff, decide_eq_false_iff_not, not_lt] at h
  omega

theorem gameTimestamps_eq (rows : List GameRow) (hread : ∀ r ∈ rows, (scanGame r {}).2 = none) :
    (rows.map roundOfRow).map (fun m => m.Timestamp) = (gameTimes rows).map Time.Unix := by
  induction rows with
  | nil => rfl
  | cons r rest ih =>
    have hr := (roundOfRow_of_scan_ok r (hread r (List.mem_cons_self _ _))).2.2.2.2.2.2
    have ih := ih (fun x hx => hread x (List.mem_cons_of_mem _ hx))
    cases ht : r.timestamp with
    | none => simp [ht] at hr
    | some t =>
      simp only [ht, Option.map_some', Option.some.injEq] at hr
      simp only [gameTimes] at ih ⊢
      simp [List.filterMap_cons, ht, hr, ih]

theorem userTimestamps_eq (rows : List UserRow) (hread : ∀ r ∈ rows, (scanUser r {}).2 = none) :
    (rows.map sessionOfRow).map (fun m => m.LogInTimestamp) =
      (userTimes rows).map Time.Unix := by
  induction rows with
  | nil => rfl
  | cons r rest ih =>
    have hr := (sessionOfRow_of_scan_ok r (hread r (List.mem_cons_self _ _))).2
    have ih := ih (fun x hx => hread x (List.mem_cons_of_mem _ hx))
    cases ht : r.timestamp with
    | none => simp [ht] at hr
    | some t =>
      simp only [ht, Option.map_some', Option.some.injEq] at hr
      simp only [userTimes] at ih ⊢
      simp [List.filterMap_cons, ht, hr, ih]

theorem unix_pairwise (times : List Time) (hfit : ∀ t ∈ times, t.fitsUnix = true)
    (hsorted : times.Pairwise (fun a b => b.After a = false)) :
    (times.map Time.Unix).Pairwise (fun x y => x ≥ y) := by
  rw [List.pairwise_map]
  exact hsorted.imp_of_mem (fun ha hb h => Time.Unix_antitone _ _ (hfit _ ha) (hfit _ hb) h)

/-- C10, as stated, fails: rows in strictly descending order of their
timestamps, two of them within the same second, give records whose
timestamps are equal, not strictly descending. -/
theorem strict_descending_order_fails :
    (∀ r ∈ sameSecondGameRows, (scanGame r {}).2 = none) ∧
      (gameTimes sameSecondGameRows).Pairwise (fun a b => a.After b = true) ∧
      (getGame exampleContext (.cursor sameSecondGameRows none)).response.payload =
        some (sameSecondGameRows.map roundOfRow) ∧
      (sameSecondGameRows.map roundOfRow).map (fun m => m.Timestamp) = [5, 5] ∧
      ¬ ((sameSecondGameRows.map roundOfRow).map (fun m => m.Timestamp)).Pairwise
          (fun x y => x > y) ∧
      (∀ r ∈ sameSecondUserRows, (scanUser r {}).2 = none) ∧
      (userTimes sameSecondUserRows).Pairwise (fun a b => a.After b = true) ∧
      (getUser exampleContext (.cursor sameSecondUserRows none)).response.payload =
        some { Sessions := sameSecondUserRows.map sessionOfRow } ∧
      (sameSecondUserRows.map sessionOfRow).map (fun m => m.LogInTimestamp) = [5, 5] ∧
      ¬ ((sameSecondUserRows.map sessionOfRow).map (fun m => m.LogInTimestamp)).Pairwise
          (fun x y => x > y) := by
  decide

/-- C10, amended: for rows read without failure whose timestamps are in
descending order (and whose Unix seconds fit an `int64`), the Timestamp
values of the rounds of `getGame` and the LogInTimestamp values of the
sessions of `getUser` are in descending order, each at least as large as
every one after it; equal values occur. -/
theorem timestamps_descending (c : Context) (gameRows : List GameRow) (userRows : List UserRow)
    (gameErr userErr : Option String)
    (hgRead : ∀ r ∈ gameRows, (scanGame r {}).2 = none)
    (huRead : ∀ r ∈ userRows, (scanUser r {}).2 = none)
    (hgFit : ∀ t ∈ gameTimes gameRows, t.fitsUnix = true)
    (huFit : ∀ t ∈ userTimes userRows, t.fitsUnix = true)
    (hgSorted : (gameTimes gameRows).Pairwise (fun a b => b.After a = false))
    (huSorted : (userTimes userRows).Pairwise (fun a b => b.After a = false)) :
    (∃ rounds : List RoundMeta,
      (getGame c (.cursor gameRows gameErr)).response.payload = some rounds ∧
        (rounds.map (fun m => m.Timestamp)).Pairwise (fun x y => x ≥ y)) ∧
    (∃ user : UserMeta,
      (getUser c (.cursor userRows userErr)).response.payload = some user ∧
        (user.Sessions.map (fun m => m.LogInTimestamp)).Pairwise (fun x y => x ≥ y)) := by
  refine ⟨⟨_, (getGame_cursor_status c _ _).2, ?_⟩, ⟨_, (getUser_cursor_status c _ _).2, ?_⟩⟩
  · rw [gameTimestamps_eq _ hgRead]
    exact unix_pairwise _ hgFit hgSorted
  · rw [userTimestamps_eq _ huRead]
    exact unix_pairwise _ huFit huSorted

theorem timestamps_descending_witness :
    ((∀ r ∈ sameSecondGameRows, (scanGame r {}).2 = none) ∧
      (∀ r ∈ exampleUserRows, (scanUser r {}).2 = none) ∧
      (∀ t ∈ gameTimes sameSecondGameRows, t.fitsUnix = true) ∧
      (∀ t ∈ userTimes exampleUserRows, t.fitsUnix = true) ∧
      (gameTimes sameSecondGameRows).Pairwise (fun a b => b.After a = false) ∧
      (userTimes exampleUserRows).Pairwise (fun a b => b.After a = false)) ∧
    (∃ rounds : List RoundMeta,
      (getGame exampleContext (.cursor sameSecondGameRows none)).response.payload =
          some rounds ∧
        (rounds.map (fun m => m.Timestamp)).Pairwise (fun x y => x ≥ y)) ∧
    (∃ user : UserMeta,
      (getUser exampleContext (.cursor exampleUserRows none)).response.payload = some user ∧
        (user.Sessions.map (fun m => m.LogInTimestamp)).Pairwise (fun x y => x ≥ y)) :=
  ⟨by decide, timestamps_descending exampleContext sameSecondGameRows exampleUserRows none none
    (by decide) (by decide) (by decide) (by decide) (by decide) (by decide)⟩

/-! ## The formatted timestamp -/

theorem cut_cycles (period r q n : Nat) (hq : q = r / period) (hn : n = q - q / 4)
    (hr : r < 4 * period + 1) (hp : 0 < period) :
    period * n ≤ r ∧ r - period * n ≤ period ∧ n ≤ 3 ∧ (r - period * n = period → n = 3) := by
  have hq4 : q ≤ 4 := by
    rw [hq]
    exact Nat.lt_succ_iff.mp ((Nat.div_lt_iff_lt_mul hp).2 (by omega))
  have hlo : period * q ≤ r := by
    rw [hq]
    exact Nat.mul_div_le r period
  have hhi : r < period * (q + 1) := by
    rw [hq]
    exact Nat.lt_mul_div_succ r hp
  interval_cases q <;> simp at hn <;> subst hn <;> omega

theorem absYday_aux (D n1 r1 q2 n2 r2 n3 r3 q4 n4 d : Nat)
    (h1 : n1 = D / 146097) (h2 : r1 = D - 146097 * n1) (h3 : q2 = r1 / 36524)
    (h4 : n2 = q2 - q2 / 4) (h5 : r2 = r1 - 36524 * n2) (h6 : n3 = r2 / 1461)
    (h7 : r3 = r2 - 1461 * n3) (h8 : q4 = r3 / 365) (h9 : n4 = q4 - q4 / 4)
    (h10 : d = r3 - 365 * n4) (year : Int)
    (hy : year = ((400 * n1 + 100 * n2 + 4 * n3 + n4 : Nat) : Int) + (-292277022399)) :
    d ≤ 365 ∧ (d = 365 → year % 4 = 0 ∧ (year % 100 ≠ 0 ∨ year % 400 = 0)) ∧
    (106751990353566 ≤ D → D ≤ 106751994005990 → 0 ≤ year ∧ year ≤ 9999) := by
  have hr1 : r1 < 146097 ∧ D = 146097 * n1 + r1 := by omega
  have f2 := cut_cycles 36524 r1 q2 n2 h3 h4 (by omega) (by omega)
  have hr2 : r1 = 36524 * n2 + r2 ∧ r2 ≤ 36524 ∧ n2 ≤ 3 ∧ (r2 = 36524 → n2 = 3) := by omega
  clear h1 h2 h3 h4 h5 f2
  have hr3 : r2 = 1461 * n3 + r3 ∧ r3 < 1461 ∧ n3 ≤ 24 := by omega
  have f4 := cut_cycles 365 r3 q4 n4 h8 h9 (by omega) (by omega)
  have hd : r3 = 365 * n4 + d ∧ d ≤ 365 ∧ n4 ≤ 3 ∧ (d = 365 → n4 = 3) := by omega
  clear h6 h7 h8 h9 h10 f4
  subst hy
  push_cast
  refine ⟨by omega, ?_, ?_⟩
  · intro hd
    omega
  · intro hlo hhi
    obtain ⟨h2a, h2b, h2c, h2d⟩ := hr2
    obtain ⟨h4a, h4b, h4c, h4d⟩ := hd
    interval_cases n2 <;> interval_cases n4 <;> omega

/-- The day within the year is at most 365, and 365 in leap years only; the
years 0 to 9999 are the years of the days 106751990353566 to
106751994005990 of the absolute scale. -/
theorem absYday_spec (abs : Nat) :
    (absYday abs).2 ≤ 365 ∧ ((absYday abs).2 = 365 → isLeap (absYday abs).1 = true) ∧
    (106751990353566 ≤ abs / 86400 → abs / 86400 ≤ 106751994005990 →
      0 ≤ (absYday abs).1 ∧ (absYday abs).1 ≤ 9999) := by
  have h := absYday_aux (abs / 86400) _ _ _ _ _ _ _ _ _ _ rfl rfl rfl rfl rfl rfl rfl rfl rfl rfl
    _ rfl
  refine ⟨h.1, ?_, h.2.2⟩
  intro hd
  have := h.2.1 hd
  simp only [isLeap, Bool.and_eq_true, Bool.or_eq_true, beq_iff_eq, bne_iff_ne, ne_eq]
  exact this

theorem absDate_range (abs : Nat) (hlo : 106751990353566 ≤ abs / 86400)
    (hhi : abs / 86400 ≤ 106751994005990) :
    0 ≤ (absDate abs).1 ∧ (absDate abs).1 ≤ 9999 ∧
      1 ≤ (absDate abs).2.1 ∧ (absDate abs).2.1 ≤ 12 ∧
      1 ≤ (absDate abs).2.2 ∧ (absDate abs).2.2 ≤ 31 := by
  obtain ⟨hd, hleap, hyear⟩ := absYday_spec abs
  obtain ⟨hy0, hy1⟩ := hyear hlo hhi
  unfold absDate
  generalize (absYday abs).1 = year at *
  generalize (absYday abs).2 = yday at *
  simp only []
  split
  · exact ⟨hy0, hy1, by norm_num, by norm_num, by norm_num, by norm_num⟩
  · rename_i hnot
    obtain ⟨day, hday⟩ : ∃ day, day = if (isLeap year && decide (yday > 31 + 29 - 1)) = true
        then yday - 1 else yday := ⟨_, rfl⟩
    rw [← hday]
    have hday364 : day ≤ 364 := by
      by_cases hl : isLeap year = true
      · by_cases hgt : yday > 31 + 29 - 1
        · simp [hl, hgt] at hday
          omega
        · simp [hl] at hnot
          simp [hl, hgt] at hday
          omega
      · have : yday ≠ 365 := fun h => hl (hleap h)
        simp [hl] at hday
        omega
    obtain ⟨month, hmonth⟩ : ∃ month, month = day / 31 := ⟨_, rfl⟩
    rw [← hmonth]
    have hm11 : month ≤ 11 := by omega
    interval_cases month <;> simp only [daysBefore, List.getD_cons_zero, List.getD_cons_succ] <;>
      split <;> refine ⟨hy0, hy1, ?_, ?_, ?_, ?_⟩ <;> simp only [] <;> omega

theorem digitChar_isDigit (n : Nat) : (digitChar n).isDigit = true := by
  unfold digitChar
  have h : n % 10 < 10 := Nat.mod_lt _ (by norm_num)
  generalize n % 10 = k at h
  interval_cases k <;> decide

theorem appendInt_two (n : Nat) (h : n < 100) :
    appendInt (n : Int) 2 = [digitChar (n / 10), digitChar n] := by
  have hneg : ¬ ((n : Int) < 0) := by omega
  simp [appendInt, h, hneg]

theorem appendInt_four (y : Int) (h0 : 0 ≤ y) (h1 : y ≤ 9999) :
    appendInt y 4 = [digitChar (y.natAbs / 1000), digitChar (y.natAbs / 100),
      digitChar (y.natAbs / 10), digitChar y.natAbs] := by
  have hneg : ¬ (y < 0) := by omega
  have habs : y.natAbs < 10000 := by omega
  simp [appendInt, habs, hneg]

theorem shortDayName_mem (abs : Nat) :
    shortDayName (absWeekday abs) ∈ ["Sun", "Mon", "Tue", "Wed", "Thu", "Fri", "Sat"] := by
  have h : absWeekday abs < 7 := by
    simp only [absWeekday, secondsPerWeek, secondsPerDay]
    omega
  generalize absWeekday abs = k at h
  interval_cases k <;> simp [shortDayName]

theorem shortMonthName_mem (m : Nat) (h1 : 1 ≤ m) (h12 : m ≤ 12) :
    shortMonthName m ∈ ["Jan", "Feb", "Mar", "Apr", "May", "Jun", "Jul", "Aug", "Sep", "Oct",
      "Nov", "Dec"] := by
  interval_cases m <;> simp [shortMonthName]

theorem absClock_lt (abs : Nat) :
    (absClock abs).1 < 100 ∧ (absClock abs).2.1 < 100 ∧ (absClock abs).2.2 < 100 := by
  simp only [absClock, secondsPerDay]
  omega

theorem timeUnix_abs (T : Int) (hlo : -62167219200 ≤ T) (hhi : T ≤ 253402300799) :
    ((timeUnix T).UTC.abs : Int) = T + 9223372028715321600 := by
  simp only [Time.abs, Time.UTC, timeUnix, Time.Unix, wrapInt64, unixToInternal, internalToUnix,
    internalToAbsolute, absoluteToInternal, absoluteZeroYear]
  norm_num
  omega

/-- Between the years 0 and 9999 the RFC 1123 form of a time has the fixed
shape. -/
theorem FormatRFC1123_shape (T : Int) (hlo : -62167219200 ≤ T) (hhi : T ≤ 253402300799) :
    RFC1123Shape (timeUnix T).UTC.FormatRFC1123 := by
  have habs := timeUnix_abs T hlo hhi
  generalize (timeUnix T).UTC = t at habs ⊢
  obtain ⟨hy0, hy1, hm1, hm12, hd1, hd31⟩ :=
    absDate_range t.abs (by omega) (by omega)
  obtain ⟨hh, hmin, hsec⟩ := absClock_lt t.abs
  unfold Time.FormatRFC1123
  simp only []
  generalize t.abs = abs at *
  generalize absDate abs = date at *
  generalize absClock abs = clock at *
  obtain ⟨year, month, day⟩ := date
  obtain ⟨hour, min, sec⟩ := clock
  simp only at hy0 hy1 hm1 hm12 hd1 hd31 hh hmin hsec ⊢
  rw [appendInt_two day (by omega), appendInt_two hour hh, appendInt_two min hmin,
    appendInt_two sec hsec, appendInt_four year hy0 hy1]
  refine ⟨shortDayName (absWeekday abs), shortMonthName month,
    digitChar (day / 10), digitChar day,
    digitChar (year.natAbs / 1000), digitChar (year.natAbs / 100), digitChar (year.natAbs / 10),
    digitChar year.natAbs,
    digitChar (hour / 10), digitChar hour, digitChar (min / 10), digitChar min,
    digitChar (sec / 10), digitChar sec,
    shortDayName_mem abs, shortMonthName_mem month hm1 hm12, ?_, ?_⟩
  · intro ch hch
    simp only [List.mem_cons, List.mem_singleton, List.not_mem_nil, or_false] at hch
    rcases hch with h | h | h | h | h | h | h | h | h | h | h | h <;> rw [h] <;>
      exact digitChar_isDigit _
  · apply String.ext
    simp [String.data_append]

theorem RFC1123Shape_length (s : String) (h : RFC1123Shape s) : s.length = 29 := by
  obtain ⟨day, month, D1, D2, Y1, Y2, Y3, Y4, h1, h2, m1, m2, s1, s2, hday, hmonth, -, rfl⟩ := h
  have hdl : day.length = 3 := by
    simp only [List.mem_cons, List.mem_singleton, List.not_mem_nil, or_false] at hday
    rcases hday with h | h | h | h | h | h | h <;> rw [h] <;> rfl
  have hml : month.length = 3 := by
    simp only [List.mem_cons, List.mem_singleton, List.not_mem_nil, or_false] at hmonth
    rcases hmonth with h | h | h | h | h | h | h | h | h | h | h | h <;> rw [h] <;> rfl
  simp only [String.length_append, hdl, hml]
  rfl

set_option maxRecDepth 100000 in
/-- C9, as stated, fails: the timestamp of January 1 of the year 10000 is
formatted with a five-digit year, which is not of the fixed shape. -/
theorem five_digit_year_breaks_shape :
    SessionBasics.FormattedTimestamp
        { SessionID := "serverA_xyz123", LogInTimestamp := 253402300800 } =
      "Sat, 01 Jan 10000 00:00:00 UTC" ∧
    ¬ RFC1123Shape (SessionBasics.FormattedTimestamp
        { SessionID := "serverA_xyz123", LogInTimestamp := 253402300800 }) := by
  have hval : SessionBasics.FormattedTimestamp
      { SessionID := "serverA_xyz123", LogInTimestamp := 253402300800 } =
      "Sat, 01 Jan 10000 00:00:00 UTC" := by decide
  refine ⟨hval, fun h => ?_⟩
  have hlen := RFC1123Shape_length _ h
  rw [hval] at hlen
  exact absurd hlen (by decide)

set_option maxRecDepth 100000 in
/-- C9, amended: FormattedTimestamp of a round, a game and a session with
the same stored timestamp `T` is the same string, the RFC 1123 form of
`time.Unix(T, 0)` in UTC, a function of `T` alone; for `T` from -62167219200
to 253402300799, the years 0 to 9999, it has the fixed shape
"Www, DD Mon YYYY HH:MM:SS UTC"; for `T = 0` it is
"Thu, 01 Jan 1970 00:00:00 UTC". -/
theorem FormattedTimestamp_of_timestamp (round : RoundMeta) (game : GameMeta)
    (session : SessionBasics) (T : Int)
    (hr : round.Timestamp = T) (hg : game.Timestamp = T) (hs : session.LogInTimestamp = T) :
    round.FormattedTimestamp = (timeUnix T).UTC.FormatRFC1123 ∧
      game.FormattedTimestamp = (timeUnix T).UTC.FormatRFC1123 ∧
      session.FormattedTimestamp = (timeUnix T).UTC.FormatRFC1123 ∧
      (-62167219200 ≤ T → T ≤ 253402300799 → RFC1123Shape (timeUnix T).UTC.FormatRFC1123) ∧
      (T = 0 → (timeUnix T).UTC.FormatRFC1123 = "Thu, 01 Jan 1970 00:00:00 UTC") := by
  refine ⟨by rw [← hr]; rfl, by rw [← hg]; rfl, by rw [← hs]; rfl,
    FormatRFC1123_shape T, ?_⟩
  rintro rfl
  decide

theorem FormattedTimestamp_of_timestamp_witness :
    (exampleRound.Timestamp = 1793566800 ∧ exampleGame.Timestamp = 1793566800 ∧
      exampleSession.LogInTimestamp = 1793566800) ∧
    (exampleRound.FormattedTimestamp = (timeUnix 1793566800).UTC.FormatRFC1123 ∧
      exampleGame.FormattedTimestamp = (timeUnix 1793566800).UTC.FormatRFC1123 ∧
      exampleSession.FormattedTimestamp = (timeUnix 1793566800).UTC.FormatRFC1123 ∧
      (-62167219200 ≤ (1793566800 : Int) → (1793566800 : Int) ≤ 253402300799 →
        RFC1123Shape (timeUnix 1793566800).UTC.FormatRFC1123) ∧
      ((1793566800 : Int) = 0 →
        (timeUnix 1793566800).UTC.FormatRFC1123 = "Thu, 01 Jan 1970 00:00:00 UTC")) :=
  ⟨by decide, FormattedTimestamp_of_timestamp exampleRound exampleGame exampleSession 1793566800
    (by decide) (by decide) (by decide)⟩

end PyxMetrics
